import Mathlib

/-!
Verification of the document ingestion and normalization pipeline
(repository rhodos/ragonrag) against its natural-language specification.

The development shallowly embeds the Python source files
code/parse_and_chunk.py and src/docai_prototype.py.  Pure functions
become Lean functions; the network and the remote document service are
modeled as explicit oracles passed in as arguments.  Python strings are
modeled as Lean strings (lists of characters); Python ints as Nat;
normalized float coordinates as rationals.
-/

namespace RagOnRag

/-! ## Python string primitives

Helpers mirroring the Python `str` methods used by the source.
Whitespace is the ASCII whitespace set recognized by `str.split`,
`str.strip` and `str.splitlines` (the texts manipulated by the pipeline
contain only spaces, tabs, carriage returns and newlines). -/

/-- The ASCII whitespace characters of Python `str.split` / `str.strip`. -/
def pyIsSpace (c : Char) : Bool :=
  c = ' ' || c = '\t' || c = '\n' || c = '\r' || c = '\x0b' || c = '\x0c'

/-- Accumulator-based splitter behind `pyWords`: `acc` holds the current
word reversed. Runs of whitespace are collapsed and no empty words are
produced, exactly as Python `str.split()` with no argument. -/
def wordsAux : List Char → List Char → List String
  | [], acc => if acc.isEmpty then [] else [acc.reverse.asString]
  | c :: cs, acc =>
    if pyIsSpace c then
      if acc.isEmpty then wordsAux cs [] else acc.reverse.asString :: wordsAux cs []
    else wordsAux cs (c :: acc)

/-- Python `text.split()`: whitespace-separated words, empties dropped. -/
def pyWords (s : String) : List String := wordsAux s.toList []

/-- Python `s.strip()`: remove leading and trailing whitespace. -/
def pyStrip (s : String) : String :=
  (((s.toList.dropWhile pyIsSpace).reverse.dropWhile pyIsSpace).reverse).asString

/-- Python `s.lower()` (ASCII case folding suffices for the source texts). -/
def pyLower (s : String) : String := (s.toList.map Char.toLower).asString

/-- Python slicing `s[a:b]` for `0 ≤ a`, `0 ≤ b` (clamped at the ends). -/
def pySlice (s : String) (a b : Nat) : String := ((s.toList.take b).drop a).asString

/-- Python `s.splitlines()` restricted to the line boundaries occurring in
this pipeline (`\n`, `\r`, `\r\n`): no trailing empty line after a final
newline, and the empty string yields no lines. -/
def splitlinesAux : List Char → List Char → List String
  | [], [] => []
  | [], acc => [acc.reverse.asString]
  | '\r' :: '\n' :: rest, acc => acc.reverse.asString :: splitlinesAux rest []
  | '\r' :: rest, acc => acc.reverse.asString :: splitlinesAux rest []
  | '\n' :: rest, acc => acc.reverse.asString :: splitlinesAux rest []
  | c :: rest, acc => splitlinesAux rest (c :: acc)

/-- Python `s.splitlines()`. -/
def pySplitlines (s : String) : List String := splitlinesAux s.toList []

/-- Substring test on character lists (`needle in hay` for Python strings). -/
def infixAux : List Char → List Char → Bool
  | needle, [] => needle.isEmpty
  | needle, c :: rest => needle.isPrefixOf (c :: rest) || infixAux needle rest

/-- Python `needle in hay` for strings. -/
def strContains (hay needle : String) : Bool := infixAux needle.toList hay.toList

/-! ## Chunker — `chunk_text` (code/parse_and_chunk.py, lines 37–45)

    words = text.split()
    chunks = []
    i = 0
    while i < len(words):
        chunk = words[i : i + max_words]
        chunks.append(" ".join(chunk))
        i += max_words - overlap
    return chunks

The loop is embedded with explicit fuel so that the definition is
structurally recursive (and hence kernel-evaluable).  `words.length` fuel
is enough for every terminating run: with stride `s ≥ 1` the loop body
executes at most `⌈words.length / s⌉ ≤ words.length` times.  When
`overlap ≥ max_words` the Python loop does not terminate (the stride is
`≤ 0`); there the Nat-subtraction stride is `0` and the fuel bound cuts
the model off — all theorems below assume `overlap < max_words`, the
precondition stated by the spec. -/

/-- One `while i < len(words)` loop of `chunk_text`, fuelled. -/
def chunkLoop (words : List String) (maxWords stride : Nat) : Nat → Nat → List String
  | 0, _ => []
  | fuel + 1, i =>
    if i < words.length then
      String.intercalate " " ((words.drop i).take maxWords)
        :: chunkLoop words maxWords stride fuel (i + stride)
    else []

/-- `chunk_text(text, max_words, overlap)` from code/parse_and_chunk.py
(defaults in the source: `max_words=250`, `overlap=50`). -/
def chunk_text (text : String) (max_words overlap : Nat) : List String :=
  let words := pyWords text
  chunkLoop words max_words (max_words - overlap) words.length 0

/-! ## Local PDF Extractor — `parse_pdf` (code/parse_and_chunk.py, lines 47–53)

    texts = []
    with pdfplumber.open(path) as pdf:
        for page in pdf.pages:
            text = page.extract_text() or ""
            texts.append(text)
    return "\n\n".join(texts).strip()

The pdfplumber page extraction is the external input: each page is an
`Option String` (`none` models `extract_text()` returning `None`; the
Python `or ""` also maps an empty string to itself). -/

/-- `parse_pdf`, embedding the accumulation loop of the source. -/
def parse_pdf (pages : List (Option String)) : String :=
  let texts := pages.foldl (fun acc p => acc ++ [p.getD ""]) ([] : List String)
  pyStrip (String.intercalate "\n\n" texts)

/-- Spec-side description of the Local PDF Extractor (spec section 4.3):
per-page texts in document order, empty string substituted for a page
yielding nothing, joined with one blank line between consecutive pages,
then trimmed.  Named separately so that `parse_pdf` (from the code) can
be proved to refine it. -/
def parse_pdf_spec (pages : List (Option String)) : String :=
  pyStrip (String.intercalate "\n\n" (pages.map (fun p => p.getD "")))

/-! ## Fetcher — `fetch_url` (code/parse_and_chunk.py, lines 55–92)

The network is an oracle mapping a header configuration to an outcome:
either a response (status code and body) or a transport-level
`requests.RequestException`.  `resp.raise_for_status()` raises (a
`RequestException` subclass, hence caught by the `except` branch) exactly
for status codes in `[400, 600)`; valid HTTP status codes are below 600. -/

/-- An HTTP response as used by `fetch_url`. -/
structure HttpResponse where
  status_code : Nat
  body : String
  deriving DecidableEq

/-- Outcome of one `requests.get` call: a response, or a transport-level
exception. -/
inductive HttpResult where
  | ok (r : HttpResponse)
  | exn
  deriving DecidableEq

/-- The network oracle: the response depends on the headers sent. -/
def Network : Type := List (String × String) → HttpResult

/-- The primary browser-like User-Agent string of the source. -/
def default_ua : String :=
  "Mozilla/5.0 (Macintosh; Intel Mac OS X 10_15_7) AppleWebKit/537.36 (KHTML, like Gecko) Chrome/120.0 Safari/537.36"

/-- The fallback User-Agent string of the source. -/
def fallback_ua : String :=
  "Mozilla/5.0 (Windows NT 10.0; Win64; x64) AppleWebKit/537.36 (KHTML, like Gecko) Chrome/120.0 Safari/537.36"

/-- First header configuration tried by `fetch_url`. -/
def primary_headers : List (String × String) := [("User-Agent", default_ua)]

/-- Second header configuration: alternate UA plus a Referer equal to the
target URL. -/
def fallback_headers (url : String) : List (String × String) :=
  [("User-Agent", fallback_ua), ("Referer", url)]

/-- The fixed ordered attempt list of `fetch_url`. -/
def fetchAttempts (url : String) : List (List (String × String)) :=
  [primary_headers, fallback_headers url]

/-- `raise_for_status` raises exactly for codes in `[400, 600)`. -/
def isErrorStatus (s : Nat) : Bool := 400 ≤ s && s < 600

/-- The `for i, hdrs in enumerate(attempts)` loop of `fetch_url`:
a 403 sets `resp = None` and continues; `raise_for_status` on any other
error status raises and the `except` branch continues; a transport
error continues; otherwise the loop breaks with the response. -/
def tryAttempts (net : Network) : List (List (String × String)) → Option HttpResponse
  | [] => none
  | hdrs :: rest =>
    match net hdrs with
    | .exn => tryAttempts net rest
    | .ok r =>
      if r.status_code = 403 then tryAttempts net rest
      else if isErrorStatus r.status_code then tryAttempts net rest
      else some r

/-- The error message raised when every attempt is exhausted (the
f-string of line 90, which mentions the URL and the attempt count). -/
def fetchFailMsg (url : String) (n : Nat) : String :=
  "Failed to fetch " ++ url ++ " after " ++ toString n
    ++ " attempts (likely 403 or network error)"

/-- `fetch_url(url)`: try the fixed header configurations in order and
either return the first usable response or raise. -/
def fetch_url (net : Network) (url : String) : Except String HttpResponse :=
  match tryAttempts net (fetchAttempts url) with
  | some r => .ok r
  | none => .error (fetchFailMsg url (fetchAttempts url).length)

/-- An outcome `fetch_url` discards before moving to the next header
configuration: a transport error, a 403, or any status that makes
`raise_for_status` raise. -/
def DiscardedOutcome (o : HttpResult) : Prop :=
  o = .exn ∨ ∃ r, o = .ok r ∧ (r.status_code = 403 ∨ isErrorStatus r.status_code = true)

/-! ## Record Builder — `process_pdf_file` / `process_url`
(code/parse_and_chunk.py, lines 126–155)

Both loops enumerate the chunks and attach one fresh `uuid4` id per
record; the id generator is modeled as an oracle from the enumeration
index to a string.  Metadata dictionaries are modeled as association
lists of strings. -/

/-- Arbitrary metadata mapping carried on records and blocks. -/
def MetaD : Type := List (String × String)

instance : DecidableEq MetaD := inferInstanceAs (DecidableEq (List (String × String)))

/-- One output record of the pipeline. -/
structure ChunkRecord where
  id : String
  source : String
  chunk_index : Nat
  text : String
  metadata : Option MetaD
  deriving DecidableEq

/-- Python `pathlib.Path(p).name`: the final path component. -/
def pyName (p : String) : String := (p.splitOn "/").getLastD p

/-- `process_pdf_file(path, max_words, overlap)`: parse the PDF, chunk
the text, and build one record per chunk with `chunk_index = i` from
`enumerate(chunks)`.  `ids` models the per-iteration `uuid.uuid4()`
draws; `pages` is the pdfplumber extraction input of `parse_pdf`. -/
def process_pdf_file (ids : Nat → String) (path : String)
    (pages : List (Option String)) (max_words overlap : Nat) : List ChunkRecord :=
  let text := parse_pdf pages
  let chunks := chunk_text text max_words overlap
  chunks.enum.map (fun ic =>
    { id := ids ic.1
      source := path
      chunk_index := ic.1
      text := ic.2
      metadata := some [("filename", pyName path), ("type", "pdf")] })

/-- `process_url(url, max_words, overlap, metadata)`: scrape the URL,
chunk the text, and build one record per chunk with `chunk_index = i`.
The already-normalized scraped text is passed in as `text` (the scrape
itself is `scrape_url`, embedded below). -/
def process_url (ids : Nat → String) (url : String) (text : String)
    (max_words overlap : Nat) (metadata : Option MetaD) : List ChunkRecord :=
  let chunks := chunk_text text max_words overlap
  chunks.enum.map (fun ic =>
    { id := ids ic.1
      source := url
      chunk_index := ic.1
      text := ic.2
      metadata := metadata })

/-! ## HTML Normalizer — `scrape_url` (code/parse_and_chunk.py, lines 95–124)

The parsed HTML document is a tree of tags and strings (the
BeautifulSoup object after `BeautifulSoup(resp.text, "html.parser")`).
The tree is a mutual inductive (node / forest of siblings) so that every
traversal below is structurally recursive and kernel-evaluable.  An
element carries its tag name and its `class` attribute values. -/

mutual

inductive HtmlNode where
  | text (s : String)
  | elem (tag : String) (cls : List String) (children : HtmlForest)
  deriving DecidableEq

inductive HtmlForest where
  | nil
  | cons (hd : HtmlNode) (tl : HtmlForest)
  deriving DecidableEq

end

/-- Build a sibling forest from a list of nodes. -/
def forestOf : List HtmlNode → HtmlForest
  | [] => .nil
  | n :: ns => .cons n (forestOf ns)

/-- The noise tags removed by `soup(["script", "style", ...])` plus
`tag.decompose()` at lines 101–102. -/
def noisyTags : List String :=
  ["script", "style", "header", "footer", "nav", "aside", "noscript"]

/-- Remove every element whose tag is noisy, together with its entire
subtree, from a forest (the `decompose` loop). -/
def stripNoisyForest : HtmlForest → HtmlForest
  | .nil => .nil
  | .cons (.text s) rest => .cons (.text s) (stripNoisyForest rest)
  | .cons (.elem t c ch) rest =>
    if noisyTags.contains t then stripNoisyForest rest
    else .cons (.elem t c (stripNoisyForest ch)) (stripNoisyForest rest)

/-- `decompose` applied below a root node (the root itself is the
document object, never matched by `find_all`). -/
def stripNoisy : HtmlNode → HtmlNode
  | .text s => .text s
  | .elem t c ch => .elem t c (stripNoisyForest ch)

/-- Python truthiness of a BeautifulSoup node: a Tag is truthy iff it
has children (`Tag.__len__`), a string iff it is non-empty.  Used by the
`if article: break` test at line 108. -/
def nodeTruthy : HtmlNode → Bool
  | .text s => s ≠ ""
  | .elem _ _ ch => ch ≠ .nil

mutual

/-- `soup.find(class_=c)`: first element in document (pre)order whose
class list contains `c`. -/
def findClassNode (c : String) : HtmlNode → Option HtmlNode
  | .text _ => none
  | .elem t cls ch =>
    if cls.contains c then some (.elem t cls ch) else findClassForest c ch

def findClassForest (c : String) : HtmlForest → Option HtmlNode
  | .nil => none
  | .cons h t =>
    match findClassNode c h with
    | some r => some r
    | none => findClassForest c t

end

/-- The candidate content-root class names probed at line 106. -/
def rootClasses : List String :=
  ["article", "main-content", "post-content", "article-content", "content"]

/-- The `for cls in [...]` probe loop: the first truthy find wins (a
found-but-empty tag is falsy in Python, so the loop keeps probing and
the final `article if article else soup` falls back to the page). -/
def selectRootAux (root : HtmlNode) : List String → Option HtmlNode
  | [] => none
  | c :: cs =>
    match findClassNode c root with
    | some a => if nodeTruthy a then some a else selectRootAux root cs
    | none => selectRootAux root cs

/-- `base = article if article else soup` (lines 105–113). -/
def selectRoot (root : HtmlNode) : HtmlNode := (selectRootAux root rootClasses).getD root

/-- The code-marking loop at lines 116–119: every `pre` or `code`
element found below the base gets a literal text node inserted
immediately before and after it — unconditionally, with no line-count
test.  The recursive transform reproduces mutate-after-find_all:
markers are inserted into the sibling list of each matched element, and
matched elements nested inside other matched elements are marked too. -/
def markCodeForest : HtmlForest → HtmlForest
  | .nil => .nil
  | .cons (.text s) rest => .cons (.text s) (markCodeForest rest)
  | .cons (.elem t c ch) rest =>
    if t = "pre" || t = "code" then
      .cons (.text "\n\n[CODEBLOCK]\n")
        (.cons (.elem t c (markCodeForest ch))
          (.cons (.text "\n\n[/CODEBLOCK]\n") (markCodeForest rest)))
    else .cons (.elem t c (markCodeForest ch)) (markCodeForest rest)

/-- Code marking below the base node (the base itself is not wrapped:
`find_all` only returns descendants). -/
def markCode : HtmlNode → HtmlNode
  | .text s => .text s
  | .elem t c ch => .elem t c (markCodeForest ch)

/-- All string nodes of a forest in document order
(BeautifulSoup `_all_strings`). -/
def collectStringsForest : HtmlForest → List String
  | .nil => []
  | .cons (.text s) rest => s :: collectStringsForest rest
  | .cons (.elem _ _ ch) rest => collectStringsForest ch ++ collectStringsForest rest

/-- `base.get_text(separator="\n")`: every descendant string joined with
the separator. -/
def getText (sep : String) : HtmlNode → String
  | .text s => s
  | .elem _ _ ch => String.intercalate sep (collectStringsForest ch)

/-- The whitespace collapse at line 123: keep the stripped form of every
line whose stripped form is non-empty, re-joined with single newlines. -/
def collapseLines (t : String) : String :=
  String.intercalate "\n" (((pySplitlines t).map pyStrip).filter (fun l => l ≠ ""))

/-- The pure normalization part of `scrape_url` (everything after the
fetch): strip noise, select the content root, mark code elements,
extract text with newline separation, collapse whitespace. -/
def scrape_url_text (root : HtmlNode) : String :=
  let soup := stripNoisy root
  let base := selectRoot soup
  let marked := markCode base
  collapseLines (getText "\n" marked)

/-! ## Remote Document Processor — src/docai_prototype.py

The Document AI wire objects used by the source: a document exposes a
global `text` and a list of pages; a page exposes a 1-based
`page_number` and `blocks` / `paragraphs` / `lines` element lists; an
element exposes text-anchor segments (character offsets into the global
text) and normalized bounding-polygon vertices.  Normalized coordinates
are modeled as rationals. -/

/-- One `text_segments` entry of a text anchor. -/
structure TextSegment where
  start_index : Nat
  end_index : Nat
  deriving DecidableEq

/-- One normalized vertex (the dict produced by `_vertex_to_dict`). -/
structure NormalizedVertex where
  x : ℚ
  y : ℚ
  deriving DecidableEq

/-- One block/paragraph/line element: its text anchor and its polygon. -/
structure LayoutElement where
  segments : List TextSegment
  vertices : List NormalizedVertex
  deriving DecidableEq

/-- One page of a Document AI response. -/
structure DocAIPage where
  page_number : Nat
  blocks : List LayoutElement
  paragraphs : List LayoutElement
  lines : List LayoutElement
  deriving DecidableEq

/-- A Document AI response document. -/
structure DocAIDocument where
  text : String
  pages : List DocAIPage
  deriving DecidableEq

/-- `get_text_for_anchor` (lines 57–65): empty for a missing/empty
anchor, otherwise the concatenation of the raw-text slices of every
segment. -/
def get_text_for_anchor (docText : String) (segments : List TextSegment) : String :=
  String.join (segments.map (fun seg => pySlice docText seg.start_index seg.end_index))

/-- The `Block` dataclass (lines 49–54). -/
structure Block where
  page : Nat
  bbox : List NormalizedVertex
  text : String
  metadata : Option MetaD
  deriving DecidableEq

/-- The candidate probing of lines 96–103: blocks, else paragraphs,
else lines. -/
def pickCandidates (p : DocAIPage) : List LayoutElement :=
  let c := p.blocks
  let c := if c = [] then p.paragraphs else c
  if c = [] then p.lines else c

/-- The page-number choice of lines 89–94: `if not page_number` uses the
service-reported local number (Python falsiness: `None` and `0` both
fail the test), otherwise the supplied override. -/
def pageNumOf (page_number : Option Nat) (p : DocAIPage) : Nat :=
  match page_number with
  | none => p.page_number
  | some n => if n = 0 then p.page_number else n

/-- The block-gathering loop of `process_small_pdf` (lines 87–109), in
service-reported order, before the sort. -/
def gatherBlocks (doc : DocAIDocument) (metadata : Option MetaD)
    (page_number : Option Nat) : List Block :=
  doc.pages.flatMap (fun p =>
    (pickCandidates p).map (fun b =>
      { page := pageNumOf page_number p
        bbox := b.vertices
        text := get_text_for_anchor doc.text b.segments
        metadata := metadata }))

/-- `centroid_yx` (lines 112–115): mean y then mean x of the bbox
vertices.  (On an empty bbox the Python code raises ZeroDivisionError;
the rational model yields `0` there — no claim involves an empty bbox.) -/
def centroid_yx (bb : List NormalizedVertex) : ℚ × ℚ :=
  ((bb.map (fun v => v.y)).sum / bb.length, (bb.map (fun v => v.x)).sum / bb.length)

/-- The sort key of line 117: the tuple `(b.page, *centroid_yx(b.bbox))`
compared lexicographically, as Python compares tuples. -/
def blockKey (b : Block) : ℕ ×ₗ (ℚ ×ₗ ℚ) :=
  toLex (b.page, toLex (centroid_yx b.bbox))

/-- The comparison `blocks.sort(key=...)` sorts by. -/
def blockLE (a b : Block) : Prop := blockKey a ≤ blockKey b

instance : DecidableRel blockLE := fun a b =>
  inferInstanceAs (Decidable (blockKey a ≤ blockKey b))

instance : IsTotal Block blockLE := ⟨fun a b => le_total (blockKey a) (blockKey b)⟩

instance : IsTrans Block blockLE := ⟨fun _ _ _ h h2 => le_trans h h2⟩

/-- `process_small_pdf` (lines 68–118): gather the blocks of the
response in service order, then `blocks.sort(key=lambda b: (b.page,
*centroid_yx(b.bbox)))`.  Python `list.sort` is a stable sort; a stable
sort by a total preorder is uniquely determined, so it is embedded as
insertion sort, which is stable and kernel-evaluable. -/
def process_small_pdf (doc : DocAIDocument) (metadata : Option MetaD)
    (page_number : Option Nat) : List Block :=
  List.insertionSort blockLE (gatherBlocks doc metadata page_number)

/-- The remote service as an oracle: the response to submitting the
whole PDF, and the response to submitting the in-memory single-page PDF
built from 0-based page `i`. -/
structure DocAIService where
  whole : DocAIDocument
  page : Nat → DocAIDocument

/-- `process_pdf` (lines 124–153): at most `maxpages` pages submits the
whole file with no page-number override; a larger page count submits one
single-page PDF per page `i`, passing `page_number = i + 1`, and
concatenates the returned block lists in page order.  (Default in the
source: `maxpages=15`.) -/
def process_pdf (service : DocAIService) (page_count : Nat)
    (metadata : Option MetaD) (maxpages : Nat) : List Block :=
  if page_count ≤ maxpages then
    process_small_pdf service.whole metadata none
  else
    (List.range page_count).flatMap (fun i =>
      process_small_pdf (service.page i) metadata (some (i + 1)))

/-- Modelled from the spec: the references/bibliography heading pattern
of spec section 4.4 step 5 (no corresponding code exists anywhere in the
source; this predicate only serves to state claim C1).  A block matches
when its stripped, lowercased text equals "references" or
"bibliography", starts with that word followed by a newline, or contains
that word within its first 20 characters. -/
def specRefHeadingMatch (s : String) : Bool :=
  let t := pyLower (pyStrip s)
  t = "references" || t = "bibliography"
    || "references\n".toList.isPrefixOf t.toList
    || "bibliography\n".toList.isPrefixOf t.toList
    || strContains ((t.toList.take 20).asString) "references"
    || strContains ((t.toList.take 20).asString) "bibliography"

/-! ## Concrete inputs used by counterexamples and witnesses -/

/-- C4 failing input: a page with a single-line inline code element. -/
def htmlC4 : HtmlNode :=
  .elem "html" [] (forestOf [
    .elem "body" [] (forestOf [
      .elem "p" [] (forestOf [
        .text "Inline: ",
        .elem "code" [] (forestOf [.text "x = 1"]),
        .text " done."])])])

/-- A network on which the primary configuration yields 403 and the
fallback configuration (the only two-header one) yields 200. -/
def netC6 : Network := fun hdrs =>
  if hdrs.length = 2 then .ok ⟨200, "okbody"⟩ else .ok ⟨403, "denied"⟩

/-- A network answering 200 on every configuration. -/
def netOK : Network := fun _ => .ok ⟨200, "B"⟩

/-- A one-page response whose single block reads "References". -/
def docRefs : DocAIDocument :=
  { text := "References"
    pages := [{ page_number := 1
                blocks := [{ segments := [⟨0, 10⟩], vertices := [⟨0, 0⟩] }]
                paragraphs := []
                lines := [] }] }

/-- A one-page response whose single block reads "After". -/
def docAfter : DocAIDocument :=
  { text := "After"
    pages := [{ page_number := 1
                blocks := [{ segments := [⟨0, 5⟩], vertices := [⟨0, 0⟩] }]
                paragraphs := []
                lines := [] }] }

/-- C1 service oracle: single-page submissions yield the "References"
page, then the "After" page. -/
def svcC1 : DocAIService :=
  { whole := docRefs
    page := fun i => if i = 0 then docRefs else docAfter }

/-- A one-page, one-block response used for the page-offset claim. -/
def docSinglePage : DocAIDocument :=
  { text := "P"
    pages := [{ page_number := 1
                blocks := [{ segments := [⟨0, 1⟩], vertices := [⟨0, 0⟩] }]
                paragraphs := []
                lines := [] }] }

/-- C5 service oracle: every single-page submission yields the same
one-block response with local page number 1. -/
def svcC5 : DocAIService :=
  { whole := docSinglePage
    page := fun _ => docSinglePage }

/-- Vertex with a low y coordinate. -/
def vLow : NormalizedVertex := ⟨0, 1/4⟩

/-- Vertex with a high y coordinate. -/
def vHigh : NormalizedVertex := ⟨0, 3/4⟩

/-- C3 input: one page whose two blocks arrive in service order
High (bottom of the page) then Low (top of the page). -/
def docC3 : DocAIDocument :=
  { text := "HighLow"
    pages := [{ page_number := 1
                blocks := [ { segments := [⟨0, 4⟩], vertices := [vHigh] },
                            { segments := [⟨4, 7⟩], vertices := [vLow] } ]
                paragraphs := []
                lines := [] }] }

/-- The block the service reports first on `docC3`. -/
def blkHigh : Block := ⟨1, [vHigh], "High", none⟩

/-- The block the service reports second on `docC3`. -/
def blkLow : Block := ⟨1, [vLow], "Low", none⟩

/-! ## Helper lemmas -/

/-- Length of the fuelled chunking loop, given enough fuel: the number
of loop iterations is the number of stride multiples below the word
count. -/
theorem chunkLoop_length (words : List String) (m s : Nat) (hs : 0 < s) :
    ∀ fuel i, words.length - i ≤ fuel →
      (chunkLoop words m s fuel i).length = (words.length - i + s - 1) / s := by
  intro fuel
  induction fuel with
  | zero =>
    intro i h
    have h0 : words.length - i = 0 := by omega
    simp [chunkLoop, h0, Nat.div_eq_of_lt (show s - 1 < s by omega)]
  | succ fuel ih =>
    intro i h
    by_cases hi : i < words.length
    · have e2 : words.length - i + s - 1 = (words.length - i - 1) + s := by omega
      rw [chunkLoop, if_pos hi, List.length_cons, ih (i + s) (by omega), e2,
        Nat.add_div_right _ hs]
      rcases Nat.lt_or_ge (words.length - i) s with hd | hd
      · have e1 : words.length - (i + s) + s - 1 = s - 1 := by omega
        rw [e1, Nat.div_eq_of_lt (show s - 1 < s by omega),
          Nat.div_eq_of_lt (show words.length - i - 1 < s by omega)]
      · have e1 : words.length - (i + s) + s - 1 = words.length - i - 1 := by omega
        rw [e1]
    · have h0 : words.length - i = 0 := by omega
      rw [chunkLoop, if_neg hi]
      simp [h0, Nat.div_eq_of_lt (show s - 1 < s by omega)]

/-- The chunk count of `chunk_text` in closed form (shared helper). -/
theorem chunk_text_length_eq (text : String) (m o : Nat) (h : o < m) :
    (chunk_text text m o).length = ((pyWords text).length + (m - o) - 1) / (m - o) := by
  have hs : 0 < m - o := by omega
  have hlen := chunkLoop_length (pyWords text) m (m - o) hs (pyWords text).length 0 (by omega)
  simpa [chunk_text] using hlen

/-- Folding append-singleton over a list is mapping (shared helper). -/
theorem foldl_append_singleton (l : List (Option String)) :
    ∀ acc : List String,
      l.foldl (fun a p => a ++ [p.getD ""]) acc = acc ++ l.map (fun p => p.getD "") := by
  induction l with
  | nil => intro acc; simp
  | cons p ps ih => intro acc; simp [ih]

/-! ## Claims about the Chunker and the Local PDF Extractor -/

/-- Claim C2, corrected.  The claim states that the number of chunks is
`⌈max(0, W - o) / (m - o)⌉` for `W > 0`; on the code the count is the
number of loop iterations, `⌈W / (m - o)⌉`, which differs (see the
counterexample).  Amended count, as a Nat ceiling division. -/
theorem chunk_text_count (text : String) (m o : Nat) (h : o < m) :
    (chunk_text text m o).length = ((pyWords text).length + (m - o) - 1) / (m - o) :=
  chunk_text_length_eq text m o h

/-- Witness for C2: the amended count at a concrete input. -/
theorem chunk_text_count_witness :
    1 < 3 ∧ (chunk_text "a b c d e f g h" 3 1).length
      = ((pyWords "a b c d e f g h").length + (3 - 1) - 1) / (3 - 1) :=
  ⟨by decide, chunk_text_count "a b c d e f g h" 3 1 (by decide)⟩

/-- Counterexample for C2 as stated: for `W = 5`, `m = 3`, `o = 1` the
code produces 3 chunks while the claimed formula
`⌈max(0, W - o) / (m - o)⌉` gives 2. -/
theorem chunk_text_count_cex :
    (pyWords "a b c d e").length = 5 ∧
    chunk_text "a b c d e" 3 1 = ["a b c", "c d e", "e"] ∧
    (chunk_text "a b c d e" 3 1).length = 3 ∧
    (max 0 (5 - 1) + (3 - 1) - 1) / (3 - 1) = 2 ∧
    (3 : Nat) ≠ 2 := by decide

/-- Claim C8, corrected.  `chunk_text` is total under the precondition
(termination is inherent in the model; the fuelled loop is exact for
`o < m`), and it returns a non-empty chunk list iff the input contains
at least one word.  The claim's "unless the input is empty" is amended
to "unless the input contains no words": a whitespace-only input is
non-empty yet yields no chunks (see the counterexample). -/
theorem chunk_text_nonempty (text : String) (m o : Nat) (h : o < m) :
    chunk_text text m o = [] ↔ pyWords text = [] := by
  have hs : 0 < m - o := by omega
  rw [← List.length_eq_zero (l := chunk_text text m o),
    ← List.length_eq_zero (l := pyWords text), chunk_text_length_eq text m o h]
  constructor
  · intro h0
    by_contra hW
    have h1 : 0 < (pyWords text).length := Nat.pos_of_ne_zero hW
    have h2 : 1 ≤ ((pyWords text).length + (m - o) - 1) / (m - o) :=
      (Nat.one_le_div_iff hs).mpr (by omega)
    omega
  · intro h0
    rw [h0]
    exact Nat.div_eq_of_lt (by omega)

/-- Witness for C8 at a concrete input with words. -/
theorem chunk_text_nonempty_witness :
    50 < 250 ∧ (chunk_text "hello world" 250 50 = [] ↔ pyWords "hello world" = []) :=
  ⟨by decide, chunk_text_nonempty "hello world" 250 50 (by decide)⟩

/-- Counterexample for C8 as stated: a whitespace-only input is not the
empty string, yet `chunk_text` returns no chunks. -/
theorem chunk_text_nonempty_cex :
    chunk_text " " 250 50 = [] ∧ " " ≠ "" := by decide

/-- Claim C9, confirmed: the accumulation loop of `parse_pdf` produces
exactly the spec description — per-page texts in page order with the
empty string substituted for a page yielding nothing, joined by one
blank line, trimmed at both ends. -/
theorem parse_pdf_matches_spec (pages : List (Option String)) :
    parse_pdf pages = parse_pdf_spec pages := by
  simp [parse_pdf, parse_pdf_spec, foldl_append_singleton]

/-- Claim C7, confirmed: for both record-producing paths, the
`chunk_index` fields are exactly `0, 1, ..., n-1` in production order
(`n` the number of records). -/
theorem chunk_index_contiguous (ids : Nat → String) (path url text : String)
    (pages : List (Option String)) (m o : Nat) (md : Option MetaD) :
    ((process_pdf_file ids path pages m o).map (fun r => r.chunk_index)
        = List.range (process_pdf_file ids path pages m o).length) ∧
    ((process_url ids url text m o md).map (fun r => r.chunk_index)
        = List.range (process_url ids url text m o md).length) := by
  constructor <;>
    simp [process_pdf_file, process_url, List.map_map, Function.comp_def,
      List.enum_map_fst]

/-! ## Claims about the Fetcher -/

/-- A discarded outcome makes the attempt loop move on to the remaining
configurations (shared helper). -/
theorem tryAttempts_discard (net : Network) (cfg : List (String × String))
    (rest : List (List (String × String))) (h : DiscardedOutcome (net cfg)) :
    tryAttempts net (cfg :: rest) = tryAttempts net rest := by
  rcases h with h | ⟨r, h, hr⟩
  · simp [tryAttempts, h]
  · rcases hr with h403 | herr
    · simp [tryAttempts, h, h403]
    · by_cases h4 : r.status_code = 403
      · simp [tryAttempts, h, h4]
      · simp [tryAttempts, h, h4, herr]

/-- A response returned by the attempt loop has a non-error status and
was produced by one of the tried configurations (shared helper). -/
theorem tryAttempts_some (net : Network) :
    ∀ cfgs r, tryAttempts net cfgs = some r →
      isErrorStatus r.status_code = false ∧ ∃ cfg, cfg ∈ cfgs ∧ net cfg = .ok r := by
  intro cfgs
  induction cfgs with
  | nil => intro r h; simp [tryAttempts] at h
  | cons cfg rest ih =>
    intro r h
    cases hnet : net cfg with
    | exn =>
      simp only [tryAttempts, hnet] at h
      obtain ⟨he, cfg2, hmem, hok⟩ := ih r h
      exact ⟨he, cfg2, List.mem_cons_of_mem _ hmem, hok⟩
    | ok r0 =>
      simp only [tryAttempts, hnet] at h
      by_cases h4 : r0.status_code = 403
      · rw [if_pos h4] at h
        obtain ⟨he, cfg2, hmem, hok⟩ := ih r h
        exact ⟨he, cfg2, List.mem_cons_of_mem _ hmem, hok⟩
      · rw [if_neg h4] at h
        by_cases he : isErrorStatus r0.status_code
        · rw [if_pos he] at h
          obtain ⟨he2, cfg2, hmem, hok⟩ := ih r h
          exact ⟨he2, cfg2, List.mem_cons_of_mem _ hmem, hok⟩
        · rw [if_neg he] at h
          cases h
          refine ⟨?_, cfg, List.mem_cons_self _ _, hnet⟩
          simpa using he

/-- Claim C6, confirmed: the Fetcher tries its fixed ordered header
configurations in sequence.  First conjunct: a discarded outcome (a
transport error, a 403, or a status that makes `raise_for_status`
raise) on one configuration moves the loop to the remaining ones.
Second conjunct: a 403 on the primary configuration followed by a 200
on the fallback configuration returns the fallback response without an
error.  Third conjunct: if both configurations are exhausted, the
result is the error message naming the URL and the attempt count (2). -/
theorem fetch_url_fallback (net : Network) (url : String) :
    (∀ cfg rest, DiscardedOutcome (net cfg) →
        tryAttempts net (cfg :: rest) = tryAttempts net rest) ∧
    (∀ b1 r2, net primary_headers = .ok ⟨403, b1⟩ →
        net (fallback_headers url) = .ok r2 → r2.status_code = 200 →
        fetch_url net url = .ok r2) ∧
    (DiscardedOutcome (net primary_headers) →
        DiscardedOutcome (net (fallback_headers url)) →
        fetch_url net url = .error (fetchFailMsg url 2)) := by
  refine ⟨fun cfg rest h => tryAttempts_discard net cfg rest h, ?_, ?_⟩
  · intro b1 r2 h1 h2 h200
    have hd : DiscardedOutcome (net primary_headers) := .inr ⟨_, h1, .inl rfl⟩
    rw [fetch_url, fetchAttempts, tryAttempts_discard net _ _ hd]
    simp [tryAttempts, h2, h200, isErrorStatus]
  · intro h1 h2
    rw [fetch_url, fetchAttempts, tryAttempts_discard net _ _ h1,
      tryAttempts_discard net _ _ h2]
    rfl

/-- Witness for C6: on a network answering 403 to the primary headers
and 200 to the fallback headers, `fetch_url` returns the fallback
response. -/
theorem fetch_url_fallback_witness :
    fetch_url netC6 "http://e.com" = .ok ⟨200, "okbody"⟩ :=
  (fetch_url_fallback netC6 "http://e.com").2.1 "denied" ⟨200, "okbody"⟩ rfl rfl rfl

/-- Claim C10, confirmed: whenever `fetch_url` returns a response
rather than an error, and the network only produces valid HTTP status
codes (below 600), the returned status is a success status below 400 —
a 403 is discarded and `raise_for_status` discards every other error
status. -/
theorem fetch_url_ok_status (net : Network) (url : String) (r : HttpResponse)
    (hvalid : ∀ cfg r0, net cfg = .ok r0 → r0.status_code < 600)
    (h : fetch_url net url = .ok r) :
    r.status_code < 400 := by
  have hsome : tryAttempts net (fetchAttempts url) = some r := by
    rw [fetch_url] at h
    cases hx : tryAttempts net (fetchAttempts url) with
    | none => rw [hx] at h; cases h
    | some r0 => rw [hx] at h; cases h; rfl
  obtain ⟨he, cfg, _, hok⟩ := tryAttempts_some net (fetchAttempts url) r hsome
  have h600 := hvalid cfg r hok
  simp only [isErrorStatus, Bool.and_eq_false_iff, decide_eq_false_iff_not] at he
  omega

/-- Witness for C10: a network answering 200 everywhere. -/
theorem fetch_url_ok_status_witness :
    (⟨200, "B"⟩ : HttpResponse).status_code < 400 :=
  fetch_url_ok_status netOK "u" ⟨200, "B"⟩
    (fun _ r0 h => by cases h; decide) rfl

/-! ## Claim about the HTML Normalizer -/

/-- Claim C4, code bug.  The claim (and the repository's own test
`test_mark_code_blocks_marks_multiline_only`) requires single-line code
elements to stay unmarked; the marking loop of `scrape_url` wraps every
`pre`/`code` element unconditionally.  Evaluation at the failing input:
the code element's text "x = 1" spans exactly one line, yet the
normalizer's output encloses it between the sentinels. -/
theorem scrape_marks_single_line_code :
    (pySplitlines "x = 1").length = 1 ∧
    scrape_url_text htmlC4 = "Inline:\n[CODEBLOCK]\nx = 1\n[/CODEBLOCK]\ndone." := by
  decide

/-! ## Claims about the Remote Document Processor -/

/-- Membership in the gathered blocks of a page-number-overridden
response forces that page number (shared helper). -/
theorem mem_gatherBlocks_page (doc : DocAIDocument) (md : Option MetaD)
    (n : Nat) (hn : n ≠ 0) :
    ∀ b ∈ gatherBlocks doc md (some n), b.page = n := by
  intro b hb
  simp only [gatherBlocks, List.mem_flatMap, List.mem_map] at hb
  obtain ⟨p, _, e, _, rfl⟩ := hb
  simp [pageNumOf, hn]

/-- Blocks of `process_small_pdf` with a non-zero page-number override
all carry that page number (shared helper). -/
theorem process_small_pdf_page_override (doc : DocAIDocument) (md : Option MetaD)
    (n : Nat) (hn : n ≠ 0) :
    ∀ b ∈ process_small_pdf doc md (some n), b.page = n := by
  intro b hb
  exact mem_gatherBlocks_page doc md n hn b
    ((List.perm_insertionSort blockLE _).mem_iff.mp hb)

/-- Claim C1, corrected.  The claim states that `process_pdf` truncates
its block list just before the last references/bibliography heading
match and stops processing further groups; the code contains no such
heuristic.  Amended: `process_pdf` applies no truncation — the
small-document case returns the whole response's blocks, and in the
split case every block of every single-page group appears in the
result. -/
theorem process_pdf_no_truncation (svc : DocAIService) (pc : Nat)
    (md : Option MetaD) (mp : Nat) :
    (pc ≤ mp → process_pdf svc pc md mp = process_small_pdf svc.whole md none) ∧
    (mp < pc → ∀ i, i < pc → ∀ b,
      b ∈ process_small_pdf (svc.page i) md (some (i + 1)) →
      b ∈ process_pdf svc pc md mp) := by
  constructor
  · intro h
    rw [process_pdf, if_pos h]
  · intro h i hi b hb
    rw [process_pdf, if_neg (by omega)]
    exact List.mem_flatMap.mpr ⟨i, List.mem_range.mpr hi, hb⟩

/-- Witness for C1 (amended): the block of the second group appears in
the result. -/
theorem process_pdf_no_truncation_witness :
    (⟨2, [⟨0, 0⟩], "After", none⟩ : Block) ∈ process_pdf svcC1 2 none 1 :=
  (process_pdf_no_truncation svcC1 2 none 1).2 (by decide) 1 (by decide) _
    (show _ ∈ process_small_pdf (svcC1.page 1) none (some 2) from
      List.mem_cons_self _ _)

/-- Counterexample for C1 as stated: the first group's only block
matches the references heading pattern (so under the claim the result
would contain nothing from that index on and no later group), yet the
returned list keeps that block and the following group's block. -/
theorem process_pdf_truncation_cex :
    (process_pdf svcC1 2 none 1).map (fun b => (b.page, b.text))
      = [(1, "References"), (2, "After")] ∧
    specRefHeadingMatch "References" = true := by
  decide

/-- Claim C3, corrected.  The claim states that block order within a
document preserves the service-reported order with no spatial
re-sorting; line 117 of the source sorts the gathered blocks by the
key `(page, centroid y, centroid x)`.  Amended: the returned list is a
permutation of the service-ordered gathered blocks that is sorted by
that spatial key. -/
theorem process_small_pdf_sorted_by_centroid (doc : DocAIDocument)
    (md : Option MetaD) (pn : Option Nat) :
    (process_small_pdf doc md pn).Perm (gatherBlocks doc md pn) ∧
    List.Sorted blockLE (process_small_pdf doc md pn) :=
  ⟨List.perm_insertionSort blockLE _, List.sorted_insertionSort blockLE _⟩

/-- Counterexample for C3 as stated: on `docC3` the service order is
High before Low, but the returned order is Low before High. -/
theorem process_small_pdf_not_service_order :
    gatherBlocks docC3 none none = [blkHigh, blkLow] ∧
    process_small_pdf docC3 none none = [blkLow, blkHigh] ∧
    process_small_pdf docC3 none none ≠ gatherBlocks docC3 none none := by
  have hg : gatherBlocks docC3 none none = [blkHigh, blkLow] := rfl
  have hno : ¬ blockLE blkHigh blkLow := by
    simp only [blockLE, blockKey, blkHigh, blkLow, vHigh, vLow, centroid_yx,
      List.map_cons, List.map_nil, List.sum_cons, List.sum_nil, List.length_cons,
      List.length_nil, Prod.Lex.le_iff]
    norm_num
  have hs : process_small_pdf docC3 none none = [blkLow, blkHigh] := by
    show List.insertionSort blockLE (gatherBlocks docC3 none none) = [blkLow, blkHigh]
    rw [hg]
    simp [List.insertionSort, List.orderedInsert, hno]
  refine ⟨hg, hs, ?_⟩
  rw [hg, hs]
  intro h
  have := congrArg (fun l => List.map Block.text l) h
  simp [blkLow, blkHigh] at this

/-- Claim C5, corrected.  The claim states that pages are partitioned
into groups of at most `maxpages` pages with global page number
`g * maxpages + local_page_number`; the code instead submits one
single-page PDF per page and overrides the page number of every block
of 0-based group `g` to `g + 1`, ignoring the service-reported local
page number.  Amended accordingly. -/
theorem process_pdf_single_page_groups (svc : DocAIService) (pc : Nat)
    (md : Option MetaD) (mp : Nat) (h : mp < pc) :
    process_pdf svc pc md mp =
      (List.range pc).flatMap
        (fun g => process_small_pdf (svc.page g) md (some (g + 1))) ∧
    ∀ g b, b ∈ process_small_pdf (svc.page g) md (some (g + 1)) → b.page = g + 1 := by
  constructor
  · rw [process_pdf, if_neg (by omega)]
  · intro g b hb
    exact process_small_pdf_page_override _ _ _ (by omega) b hb

/-- Witness for C5 (amended): the split path at a concrete oracle. -/
theorem process_pdf_single_page_groups_witness :
    process_pdf svcC5 3 none 2 =
      (List.range 3).flatMap
        (fun g => process_small_pdf (svcC5.page g) none (some (g + 1))) :=
  (process_pdf_single_page_groups svcC5 3 none 2 (by decide)).1

/-- Counterexample for C5 as stated: with `maxpages = 2` and three
pages, the block of group 1 carries global page number 2 while the
service-reported local page number is 1, so the claimed formula
`g * maxpages + local = 1 * 2 + 1 = 3` does not hold. -/
theorem process_pdf_page_formula_cex :
    (process_pdf svcC5 3 none 2).map (fun b => b.page) = [1, 2, 3] ∧
    (svcC5.page 1).pages.map (fun p => p.page_number) = [1] ∧
    (2 : Nat) ≠ 1 * 2 + 1 := by
  decide

end RagOnRag
